import Mathlib

/-!
Verification of the sandboxed REPL layer of `pydantic-ai-rlm`.

This file shallowly embeds the data model and operations of
`src/pydantic_ai_rlm/repl.py`, `toolset.py`, `utils.py` and
`dependencies.py` and proves / refutes the specification claims about
them.  Submitted Python code fragments are modelled by a small
statement language (`Stmt`) together with a printer (`Stmt.toLine`)
producing the textual line the real program would see; all of the
string-level dispatch logic of the source (`is_expression`, line
splitting, truncation, formatting) is embedded exactly on the printed
text.  Python dictionaries are modelled as association lists in which
assignment removes every previous binding of the key and appends the
new one; Python dictionaries keep the original position on overwrite,
but none of the claims below depend on iteration order.
-/

namespace RLM

/-- A single quote character, used when rendering Python `repr` text. -/
def sq : String := String.mk [Char.ofNat 39]

/-- Python `str.strip()`: remove leading and trailing whitespace.
Implemented structurally on the character list so that it evaluates
inside the kernel. -/
def pyStrip (s : String) : String :=
  String.mk (((s.data.dropWhile Char.isWhitespace).reverse.dropWhile Char.isWhitespace).reverse)

/-- Python `s.startswith(p)`. -/
def pyStartsWith (s p : String) : Bool :=
  p.data.isPrefixOf s.data

/-- Python `s.endswith(p)`. -/
def pyEndsWith (s p : String) : Bool :=
  p.data.reverse.isPrefixOf s.data.reverse

/-- Python `s.split("#")[0]`: the part of `s` before the first `#`. -/
def beforeHash (s : String) : String :=
  String.mk (s.data.takeWhile (fun c => c ≠ Char.ofNat 35))

/-- Python `c in s` for a single character `c`. -/
def pyContainsChar (s : String) (c : Char) : Bool :=
  s.data.contains c

/-- First `n` characters of `s` (Python `s[:n]` for `n ≥ 0`). -/
def takeChars (n : Nat) (s : String) : String :=
  String.mk (s.data.take n)

/-- Characters of `s` from position `n` on (Python `s[n:]` for `n ≥ 0`). -/
def dropChars (n : Nat) (s : String) : String :=
  String.mk (s.data.drop n)

/-- Python `sep.join(xs)`. -/
def joinWith (sep : String) : List String → String
  | [] => ""
  | [x] => x
  | x :: y :: xs => x ++ sep ++ joinWith sep (y :: xs)

/-! ### Association lists (the model of Python `dict`) -/

/-- Finite map from keys to values, as an association list. -/
def Assoc (κ ν : Type) : Type := List (κ × ν)

namespace Assoc

variable {κ ν : Type} [DecidableEq κ]

/-- `d.get k` — Python `d[k]` / `d.get(k)`. -/
def get : Assoc κ ν → κ → Option ν
  | [], _ => none
  | p :: rest, k => if p.1 = k then some p.2 else get rest k

/-- `d.set k v` — Python `d[k] = v`: every earlier binding of `k` is
removed and the new binding appended. -/
def set : Assoc κ ν → κ → ν → Assoc κ ν
  | [], k, v => [(k, v)]
  | p :: rest, k, v => if p.1 = k then set rest k v else p :: set rest k v

/-- `d.mem k` — Python `k in d`. -/
def mem : Assoc κ ν → κ → Bool
  | [], _ => false
  | p :: rest, k => p.1 = k || mem rest k

/-- `Assoc.union a b` — Python `{**a, **b}` (entries of `b` win). -/
def union (a b : Assoc κ ν) : Assoc κ ν :=
  b.foldl (fun acc p => acc.set p.1 p.2) a

/-- Key list of an association list. -/
def keys (d : Assoc κ ν) : List κ :=
  d.map Prod.fst

/-- Well-formedness: no key occurs twice. -/
def Nodup (d : Assoc κ ν) : Prop :=
  (keys d).Nodup

instance (d : Assoc κ ν) : Decidable (Nodup d) := by
  unfold Nodup; infer_instance


end Assoc


/-! ### Values, expressions and statements

Submitted code is modelled by a line-oriented statement language.  Each
`Stmt` is one line of the fragment; `Stmt.toLine` produces the exact
text the Python implementation sees, and the evaluator gives the lines
Python semantics (`exec` for statements, `eval` for expressions). -/

/-- Runtime values of the modelled Python subset.  `builtin` is an
opaque capability from the restricted builtin table, `builtinsObj` the
restricted `__builtins__` dictionary itself, `file` the (closed) file
handle left over from context loading. -/
inductive Val where
  | int (n : Int)
  | bool (b : Bool)
  | str (s : String)
  | noneV
  | module (name : String)
  | file
  | builtin (name : String)
  | builtinsObj
deriving DecidableEq

/-- Namespace mapping variable names to values (a Python `dict`). -/
def NS : Type := Assoc String Val

instance : DecidableEq NS := by
  unfold NS Assoc; infer_instance

/-- Python `str(v)`.  Representations of non-printable objects (module,
file, builtin) are deterministic approximations of CPython's text. -/
def strVal : Val → String
  | .int n => toString n
  | .bool true => "True"
  | .bool false => "False"
  | .str s => s
  | .noneV => "None"
  | .module m => "<module " ++ sq ++ m ++ sq ++ ">"
  | .file => "<closed file>"
  | .builtin b => "<built-in function " ++ b ++ ">"
  | .builtinsObj => "<builtins>"

/-- Python `repr(v)` (quote inner escaping of strings is not modelled:
claims only evaluate `repr` on quote-free strings). -/
def reprVal : Val → String
  | .str s => sq ++ s ++ sq
  | v => strVal v

/-- Expressions of the modelled subset.  Calls take a single argument,
which is all the claims need. -/
inductive Expr where
  | lit (v : Val)
  | var (x : String)
  | eqCmp (a b : Expr)
  | add (a b : Expr)
  | call (f : String) (arg : Expr)
deriving DecidableEq

/-- One line of submitted code.  `seqStmt` is two expression statements
joined by a semicolon on a single line (valid for `exec`, a syntax
error for `eval`); `comment` and `blank` are lines skipped by the
non-comment filter of `_execute_with_expression_display`. -/
inductive Stmt where
  | assign (x : String) (e : Expr)
  | exprStmt (e : Expr)
  | printStmt (e : Expr)
  | importStmt (m : String)
  | passStmt
  | seqStmt (a b : Expr)
  | comment (s : String)
  | blank
deriving DecidableEq

/-- Python source text of an expression (used to reconstruct the lines
the string-level heuristics of `repl.py` inspect). -/
def exprToLine : Expr → String
  | .lit v => reprVal v
  | .var x => x
  | .eqCmp a b => exprToLine a ++ " == " ++ exprToLine b
  | .add a b => exprToLine a ++ " + " ++ exprToLine b
  | .call f arg => f ++ "(" ++ exprToLine arg ++ ")"

/-- The text of one line of submitted code. -/
def Stmt.toLine : Stmt → String
  | .assign x e => x ++ " = " ++ exprToLine e
  | .exprStmt e => exprToLine e
  | .printStmt e => "print(" ++ exprToLine e ++ ")"
  | .importStmt m => "import " ++ m
  | .passStmt => "pass"
  | .seqStmt a b => exprToLine a ++ " ; " ++ exprToLine b
  | .comment s => "#" ++ s
  | .blank => ""

/-! ### Configuration and dependencies (`dependencies.py`) -/

/-- `RLMConfig` (dependencies.py).  `code_timeout` is a float in the
source (only its sign/display could matter, modelled as `Int`);
`truncate_output_chars` is an int used as a character count. -/
structure RLMConfig where
  code_timeout : Int
  truncate_output_chars : Nat
  sub_model : Option String
deriving DecidableEq

/-- The dataclass defaults: `code_timeout=60.0`,
`truncate_output_chars=50_000`, `sub_model=None`. -/
def RLMConfig.defaults : RLMConfig := ⟨60, 50000, Option.none⟩

/-- `RLMDependencies` (dependencies.py).  `context` is typed
`ContextType` in the source but can be `None` at runtime, hence
`Option`. -/
structure RLMDependencies where
  context : Option Val
  config : RLMConfig
deriving DecidableEq

/-- Constructing `RLMConfig`: the dataclass has no `__post_init__`, so
construction never raises, whatever the field values are. -/
def mkRLMConfig (t : Int) (tr : Nat) (sm : Option String) : Except String RLMConfig :=
  Except.ok ⟨t, tr, sm⟩

/-- Constructing `RLMDependencies`: `__post_init__` raises
`ValueError("context cannot be None")` on a null context and validates
nothing else. -/
def mkRLMDependencies (c : Option Val) (cfg : RLMConfig) : Except String RLMDependencies :=
  match c with
  | Option.none => Except.error "context cannot be None"
  | some v => Except.ok ⟨some v, cfg⟩

/-- Python truthiness of an `Optional[str]` (used by
`if self.config.sub_model:` and `if sub_model and not config.sub_model:`). -/
def pyTruthyStr : Option String → Bool
  | Option.none => false
  | some s => decide (s ≠ "")

/-! ### The restricted builtin table (`repl.py` class attributes) -/

/-- The keys of `SAFE_BUILTINS`, in source order; each is bound to the
corresponding (opaque) callable. -/
def SAFE_BUILTIN_NAMES : List String :=
  ["print", "len", "str", "int", "float", "bool", "list", "dict", "set",
   "tuple", "type", "isinstance", "issubclass", "range", "enumerate",
   "zip", "map", "filter", "sorted", "reversed", "iter", "next", "min",
   "max", "sum", "abs", "round", "pow", "divmod", "chr", "ord", "hex",
   "bin", "oct", "repr", "ascii", "format", "any", "all", "slice",
   "hash", "id", "callable", "hasattr", "getattr", "setattr", "delattr",
   "dir", "vars", "bytes", "bytearray", "memoryview", "complex",
   "super", "property", "staticmethod", "classmethod", "object",
   "Exception", "ValueError", "TypeError", "KeyError", "IndexError",
   "AttributeError", "RuntimeError", "StopIteration", "AssertionError",
   "NotImplementedError", "__import__"]

/-- The keys of `FILE_ACCESS_BUILTINS`. -/
def FILE_ACCESS_BUILTIN_NAMES : List String :=
  ["open", "FileNotFoundError", "OSError", "IOError"]

/-- The keys of `BLOCKED_BUILTINS`, each bound to `None`. -/
def BLOCKED_BUILTIN_NAMES : List String :=
  ["eval", "exec", "compile", "globals", "locals", "input", "__builtins__"]

/-- `_create_builtins`: safe builtins, updated with the file-access
builtins, then overwritten with the blocked placeholders. -/
def createBuiltins : NS :=
  let b : NS := SAFE_BUILTIN_NAMES.map (fun n => (n, Val.builtin n))
  let b := FILE_ACCESS_BUILTIN_NAMES.foldl (fun acc n => Assoc.set acc n (Val.builtin n)) b
  BLOCKED_BUILTIN_NAMES.foldl (fun acc n => Assoc.set acc n Val.noneV) b

/-! ### Expression evaluation (Python `eval` on the modelled subset) -/

/-- Python errors distinguished by the implementation's handlers. -/
inductive PyErr where
  | nameError (x : String)
  | typeError (msg : String)
  | synError
deriving DecidableEq

/-- `str(e)` for a raised error, as interpolated into `f"\nError: {e!s}"`. -/
def errStr : PyErr → String
  | .nameError x => "name " ++ sq ++ x ++ sq ++ " is not defined"
  | .typeError m => m
  | .synError => "invalid syntax"

/-- Whether the error is caught by `except (SyntaxError, NameError)` in
`_execute_with_expression_display`. -/
def isSynOrNameErr : PyErr → Bool
  | .nameError _ => true
  | .synError => true
  | .typeError _ => false

/-- Name resolution inside `exec`/`eval`: the combined namespace first,
then the restricted builtin table. -/
def lookupName (ns : NS) (x : String) : Option Val :=
  match Assoc.get ns x with
  | some v => some v
  | Option.none => Assoc.get createBuiltins x

/-- Semantics of the modelled single-argument builtins; calls to other
capabilities (never exercised by the claims) raise a `TypeError`. -/
def applyBuiltin (b : String) (v : Val) : Except PyErr Val :=
  if b = "len" then
    match v with
    | .str s => Except.ok (Val.int s.length)
    | _ => Except.error (.typeError "object has no len()")
  else if b = "str" then Except.ok (Val.str (strVal v))
  else if b = "repr" then Except.ok (Val.str (reprVal v))
  else if b = "abs" then
    match v with
    | .int n => Except.ok (Val.int (Int.natAbs n))
    | _ => Except.error (.typeError "bad operand type for abs()")
  else Except.error (.typeError ("call to builtin " ++ b ++ " is not modelled"))

/-- Evaluation of an expression in a namespace.  Python evaluates the
callee name before the argument; `==` on distinct types is modelled as
structural disequality (Python's numeric/bool coercion is not). -/
def evalExpr (ns : NS) : Expr → Except PyErr Val
  | .lit v => Except.ok v
  | .var x =>
    match lookupName ns x with
    | some v => Except.ok v
    | Option.none => Except.error (.nameError x)
  | .eqCmp a b =>
    match evalExpr ns a with
    | Except.error e => Except.error e
    | Except.ok va =>
      match evalExpr ns b with
      | Except.error e => Except.error e
      | Except.ok vb => Except.ok (Val.bool (decide (va = vb)))
  | .add a b =>
    match evalExpr ns a with
    | Except.error e => Except.error e
    | Except.ok va =>
      match evalExpr ns b with
      | Except.error e => Except.error e
      | Except.ok vb =>
        match va, vb with
        | Val.int x, Val.int y => Except.ok (Val.int (x + y))
        | Val.str x, Val.str y => Except.ok (Val.str (x ++ y))
        | _, _ => Except.error (.typeError "unsupported operand type(s) for +")
  | .call f arg =>
    match lookupName ns f with
    | Option.none => Except.error (.nameError f)
    | some callee =>
      match evalExpr ns arg with
      | Except.error e => Except.error e
      | Except.ok v =>
        match callee with
        | Val.builtin b => applyBuiltin b v
        | Val.noneV =>
          Except.error (.typeError (sq ++ "NoneType" ++ sq ++ " object is not callable"))
        | _ => Except.error (.typeError "object is not callable")

/-! ### Per-call execution (`repl.py`) -/

/-- Execution state threaded through `exec`: the (mutable) namespace,
the captured stdout so far, and the pending raised error, if any.  The
Python stdout buffer keeps partial output when an exception is raised,
and in-place namespace mutations survive the raise. -/
structure ExecSt where
  ns : NS
  out : String
  err : Option PyErr
deriving DecidableEq

/-- Python `exec` of a single line in the current state (no-op once an
error is pending, which models the exception aborting the block). -/
def execStmt (st : ExecSt) (s : Stmt) : ExecSt :=
  match st.err with
  | some _ => st
  | Option.none =>
    match s with
    | .assign x e =>
      match evalExpr st.ns e with
      | Except.ok v => { st with ns := Assoc.set st.ns x v }
      | Except.error e2 => { st with err := some e2 }
    | .exprStmt e =>
      match evalExpr st.ns e with
      | Except.ok _ => st
      | Except.error e2 => { st with err := some e2 }
    | .printStmt e =>
      match evalExpr st.ns e with
      | Except.ok v => { st with out := st.out ++ strVal v ++ "\n" }
      | Except.error e2 => { st with err := some e2 }
    | .importStmt m => { st with ns := Assoc.set st.ns m (Val.module m) }
    | .seqStmt a b =>
      match evalExpr st.ns a with
      | Except.error e2 => { st with err := some e2 }
      | Except.ok _ =>
        match evalExpr st.ns b with
        | Except.error e2 => { st with err := some e2 }
        | Except.ok _ => st
    | .passStmt => st
    | .comment _ => st
    | .blank => st

/-- Python `exec` of a block of lines. -/
def execStmts (stmts : List Stmt) (st : ExecSt) : ExecSt :=
  stmts.foldl execStmt st

/-- Python `eval` of the text of one submitted line: only an
expression-statement line parses as an expression; all other modelled
line forms (assignment, import, `pass`, semicolon sequence, …) raise
`SyntaxError` under `eval`. -/
def evalLineAsExpr (s : Stmt) (ns : NS) : Except PyErr Val :=
  match s with
  | .exprStmt e => evalExpr ns e
  | _ => Except.error PyErr.synError

/-- The statement-keyword heads tested by `is_expression`
(`repl.py` lines 408-431), in source order.  Note that `break`,
`continue` and `pass` are tested without a trailing space. -/
def STMT_START_TOKENS : List String :=
  ["import ", "from ", "def ", "class ", "if ", "for ", "while ",
   "try:", "with ", "return ", "yield ", "raise ", "break", "continue",
   "pass", "assert ", "del ", "global ", "nonlocal "]

/-- `is_expression` (repl.py lines 408-435): the stripped last line
must not start with a statement keyword, must not contain the
character `=` before any `#` (which also rejects comparisons and
keyword arguments, not only assignments), must not end with `:`, and
must not start with `print(`. -/
def is_expression (last_line : String) : Bool :=
  !(STMT_START_TOKENS.any (fun p => pyStartsWith last_line p)) &&
  !(pyContainsChar (beforeHash last_line) (Char.ofNat 61)) &&
  !(pyEndsWith last_line ":") &&
  !(pyStartsWith last_line "print(")

/-- The import/other split predicate of `execute` (repl.py line 338):
`stripped.startswith(("import ", "from ")) and not stripped.startswith("#")`. -/
def is_import_line (line : String) : Bool :=
  (pyStartsWith (pyStrip line) "import " || pyStartsWith (pyStrip line) "from ") &&
  !(pyStartsWith (pyStrip line) "#")

/-- The non-comment line filter of `_execute_with_expression_display`
(repl.py line 399), negated: blank or `#`-starting after stripping. -/
def isCommentOrBlankLine (line : String) : Bool :=
  pyStrip line = "" || pyStartsWith (pyStrip line) "#"

/-- `_execute_with_expression_display` (repl.py lines 386-461),
faithfully including its quirks: the *first* line whose stripped text
equals the last non-comment line is where the preceding-statement
block is cut (`break` in the index search), index `0` and `None` are
both treated as "nothing to pre-execute" (`if last_line_idx and
last_line_idx > 0`), and only `SyntaxError`/`NameError` trigger the
silent whole-fragment fallback. -/
def _execute_with_expression_display (stmts : List Stmt) (ns : NS) : ExecSt :=
  let lines := stmts.map Stmt.toLine
  let nonComment := stmts.filter (fun s => !isCommentOrBlankLine (Stmt.toLine s))
  match nonComment.getLast? with
  | Option.none => execStmts stmts ⟨ns, "", Option.none⟩
  | some lastStmt =>
    let last_line := pyStrip (Stmt.toLine lastStmt)
    if is_expression last_line then
      let st0 : ExecSt := ⟨ns, "", Option.none⟩
      let stBefore :=
        if nonComment.length > 1 then
          match List.findIdx? (fun l => pyStrip l = last_line) lines with
          | some idx => if idx > 0 then execStmts (stmts.take idx) st0 else st0
          | Option.none => st0
        else st0
      match stBefore.err with
      | some e =>
        if isSynOrNameErr e then execStmts stmts { stBefore with err := Option.none }
        else stBefore
      | Option.none =>
        match evalLineAsExpr lastStmt stBefore.ns with
        | Except.ok v =>
          if v = Val.noneV then stBefore
          else { stBefore with out := stBefore.out ++ reprVal v ++ "\n" }
        | Except.error e =>
          if isSynOrNameErr e then execStmts stmts { stBefore with err := Option.none }
          else { stBefore with err := some e }
    else execStmts stmts ⟨ns, "", Option.none⟩

/-- The merge of newly bound names back into the variable store
(repl.py lines 357-359): every key of the combined namespace that is
not a key of the (import-updated) globals is written into the store. -/
def mergeLocals (locs globs combined : NS) : NS :=
  combined.foldl (fun acc p => if Assoc.mem globs p.1 then acc else Assoc.set acc p.1 p.2) locs

/-- A sandbox session: configuration, restricted globals and the
persistent variable store (`self.globals` / `self.locals`). -/
structure REPLEnv where
  config : RLMConfig
  globals : NS
  locals : NS
deriving DecidableEq

/-- `REPLResult` (repl.py lines 23-43).  `execution_time` is wall-clock
float seconds in the source; it is modelled in integral milliseconds
and supplied by the caller, since the embedding has no clock. -/
structure REPLResult where
  stdout : String
  stderr : String
  locals : NS
  execution_time : Nat
  success : Bool
deriving DecidableEq

/-- The bindings `_load_context`/`_execute_internal` leave in the
variable store: a text payload runs `with open(...) as f: context =
f.read()` (binding `f`, then `context`); any other payload runs
`import json` plus the same `with` block (binding `json`, `f`,
`context`).  The serialize/deserialize round trip is modelled as the
identity, with a `None` payload loading back as `None`. -/
def loadContextLocals : Option Val → NS
  | some (Val.str s) => [("f", Val.file), ("context", Val.str s)]
  | c => [("json", Val.module "json"), ("f", Val.file), ("context", c.getD Val.noneV)]

/-- `REPLEnvironment.__init__`: restricted globals (with `llm_query`
when a sub-model is configured and truthy), then context loading into
the variable store. -/
def initREPL (context : Option Val) (cfg : RLMConfig) : REPLEnv :=
  let g0 : NS := [("__builtins__", Val.builtinsObj)]
  let g1 := if pyTruthyStr cfg.sub_model then Assoc.set g0 "llm_query" (Val.builtin "llm_query") else g0
  { config := cfg, globals := g1, locals := loadContextLocals context }

/-- The untruncated outcome of one `execute` call: updated globals and
variable store, raw captured stdout/stderr and the success flag.
Captured stderr is empty unless the `except` clause appends
`f"\nError: {e!s}"` (nothing in the modelled subset writes to
`sys.stderr` directly). -/
structure RawResult where
  globals : NS
  locals : NS
  stdout : String
  stderr : String
  success : Bool
deriving DecidableEq

/-- The body of `execute` (repl.py lines 310-367) before truncation:
split lines into imports and the rest, execute imports against the
globals, execute the rest against `{**globals, **locals}` through the
display helper, and merge new bindings into the store on success.  On
an error the store is left untouched and the error text is appended to
the captured stderr. -/
def executeRaw (env : REPLEnv) (stmts : List Stmt) : RawResult :=
  let importStmts := stmts.filter (fun s => is_import_line (Stmt.toLine s))
  let otherStmts := stmts.filter (fun s => !is_import_line (Stmt.toLine s))
  let globals1 := importStmts.foldl (fun g s =>
    match s with
    | Stmt.importStmt m => Assoc.set g m (Val.module m)
    | _ => g) env.globals
  if otherStmts.isEmpty then ⟨globals1, env.locals, "", "", true⟩
  else
    let combined := Assoc.union globals1 env.locals
    let st := _execute_with_expression_display otherStmts combined
    match st.err with
    | Option.none => ⟨globals1, mergeLocals env.locals globals1 st.ns, st.out, "", true⟩
    | some e => ⟨globals1, env.locals, st.out, "\nError: " ++ errStr e, false⟩

/-- The truncation marker appended by `execute` (repl.py lines 371-376). -/
def TRUNCATION_MARKER : String := "\n... (output truncated)"

/-- Output truncation: `content[:max_chars] + "\n... (output truncated)"`
when the content exceeds `max_chars` characters, otherwise unchanged. -/
def truncOut (max_chars : Nat) (s : String) : String :=
  if s.length > max_chars then takeChars max_chars s ++ TRUNCATION_MARKER else s

/-- `REPLEnvironment.execute`: run the fragment, truncate captured
output and error text, snapshot the variable store (`dict(self.locals)`)
into the result.  `elapsed_ms` stands for the measured wall-clock time. -/
def execute (env : REPLEnv) (stmts : List Stmt) (elapsed_ms : Nat) : REPLEnv × REPLResult :=
  let raw := executeRaw env stmts
  let env2 : REPLEnv := { config := env.config, globals := raw.globals, locals := raw.locals }
  (env2,
   { stdout := truncOut env.config.truncate_output_chars raw.stdout,
     stderr := truncOut env.config.truncate_output_chars raw.stderr,
     locals := raw.locals,
     execution_time := elapsed_ms,
     success := raw.success })

/-! ### Result formatting (`utils.py`) -/

/-- The user-variable filter of `format_repl_result` (utils.py line
26): drop names starting with `_` and the reserved names `context`,
`json`, `re`, `os`. -/
def userVars (locs : NS) : NS :=
  List.filter (fun p => !(pyStartsWith p.1 "_") && !(["context", "json", "re", "os"].contains p.1)) locs

/-- Three-digit zero-padded fraction, for the `{:.3f}` time display. -/
def pad3 (n : Nat) : String :=
  if n < 10 then "00" ++ toString n
  else if n < 100 then "0" ++ toString n
  else toString n

/-- `f"{result.execution_time:.3f}"` with the time carried in integral
milliseconds. -/
def fmtSecs3 (ms : Nat) : String :=
  toString (ms / 1000) ++ "." ++ pad3 (ms % 1000)

/-- `format_repl_result` (utils.py lines 6-47): output section, error
section, user-variable section (each value's repr capped at
`max_var_display` characters with `...`), then unconditionally the
execution-time line, joined by blank lines; the "no output" sentinel is
returned only if no part was collected. -/
def format_repl_result (result : REPLResult) (max_var_display : Nat) : String :=
  let parts : List String := []
  let parts := if pyStrip result.stdout ≠ "" then parts ++ ["Output:\n" ++ result.stdout] else parts
  let parts := if pyStrip result.stderr ≠ "" then parts ++ ["Errors:\n" ++ result.stderr] else parts
  let user_vars := userVars result.locals
  let parts :=
    if List.isEmpty user_vars then parts
    else
      let var_summaries := List.map (fun (p : String × Val) =>
        let value_str := reprVal p.2
        let value_str :=
          if value_str.length > max_var_display then takeChars max_var_display value_str ++ "..."
          else value_str
        "  " ++ p.1 ++ " = " ++ value_str) user_vars
      if List.isEmpty var_summaries then parts
      else parts ++ ["Variables:\n" ++ joinWith "\n" var_summaries]
  let parts := parts ++ ["Execution time: " ++ fmtSecs3 result.execution_time ++ "s"]
  if List.isEmpty parts then "Code executed successfully (no output)"
  else joinWith "\n\n" parts

/-! ### Session registry and tool adapter (`toolset.py`) -/

/-- The process-wide `_repl_registry: dict[int, REPLEnvironment]`,
keyed by `id(ctx.deps)` — the identity, not the value, of the
dependency bundle.  Object identities are modelled as externally
supplied `Nat` keys. -/
def Registry : Type := Assoc Nat REPLEnv

/-- `_get_or_create_repl` (toolset.py lines 114-130): return the
registered session for the key, or build one from the bundle's context
and configuration.  When the factory `sub_model` is truthy and the
bundle's configuration has none, a fresh default configuration carrying
only that sub-model is used (as in the source, which discards the other
configured fields in that case). -/
def _get_or_create_repl (registry : Registry) (depsId : Nat) (deps : RLMDependencies)
    (factorySubModel : Option String) : Registry × REPLEnv :=
  match Assoc.get registry depsId with
  | some env => (registry, env)
  | Option.none =>
    let config := deps.config
    let config :=
      if pyTruthyStr factorySubModel && !pyTruthyStr config.sub_model then
        { code_timeout := 60, truncate_output_chars := 50000, sub_model := factorySubModel }
      else config
    let env := initREPL deps.context config
    (Assoc.set registry depsId env, env)

/-- The outcome of awaiting `repl_env.execute` under
`asyncio.wait_for`: a completed result, a deadline hit, or any other
exception (with its text). -/
inductive ToolOutcome where
  | completed (r : REPLResult)
  | timedOut
  | failed (msg : String)
deriving DecidableEq

/-- The `execute_code` tool body (toolset.py lines 132-147) after the
awaited call resolves: every outcome becomes text.  `timeoutText` is
the displayed form of the configured `code_timeout` float. -/
def execute_code (timeoutText : String) (o : ToolOutcome) : String :=
  match o with
  | .completed r => format_repl_result r 200
  | .timedOut => "Error: Code execution timed out after " ++ timeoutText ++ " seconds."
  | .failed m => "Error executing code: " ++ m


/-- A demonstration session: text context `"ctx"`, default configuration.
Used by the concrete witnesses and counterexamples below. -/
def envDemo : REPLEnv := initREPL (some (Val.str "ctx")) RLMConfig.defaults

/-! ## Theorems -/

theorem takeChars_length (n : Nat) (s : String) :
    (takeChars n s).length = min n s.length := by
  cases s with
  | mk data =>
    show (String.mk (data.take n)).length = min n (String.mk data).length
    rw [String.length_mk, String.length_mk, List.length_take]

theorem takeChars_append_dropChars (n : Nat) (s : String) :
    takeChars n s ++ dropChars n s = s := by
  cases s with
  | mk data =>
    show String.mk (data.take n ++ data.drop n) = String.mk data
    rw [List.take_append_drop]

namespace Assoc

variable {κ ν : Type} [DecidableEq κ]

theorem get_nil (k : κ) : get ([] : Assoc κ ν) k = none := rfl

theorem get_cons (p : κ × ν) (rest : Assoc κ ν) (k : κ) :
    get (p :: rest) k = if p.1 = k then some p.2 else get rest k := rfl

theorem set_nil (k : κ) (v : ν) : set ([] : Assoc κ ν) k v = [(k, v)] := rfl

theorem set_cons (p : κ × ν) (rest : Assoc κ ν) (k : κ) (v : ν) :
    set (p :: rest) k v = if p.1 = k then set rest k v else p :: set rest k v := rfl

theorem mem_nil (k : κ) : mem ([] : Assoc κ ν) k = false := rfl

theorem mem_cons (p : κ × ν) (rest : Assoc κ ν) (k : κ) :
    mem (p :: rest) k = (decide (p.1 = k) || mem rest k) := rfl

theorem get_set_self (d : Assoc κ ν) (k : κ) (v : ν) :
    (d.set k v).get k = some v := by
  induction d with
  | nil => rw [set_nil, get_cons]; simp
  | cons p rest ih =>
    by_cases hp : p.1 = k
    · rw [set_cons, if_pos hp]; exact ih
    · rw [set_cons, if_neg hp, get_cons, if_neg hp]; exact ih

theorem get_set_ne (d : Assoc κ ν) (k k' : κ) (v : ν) (h : k' ≠ k) :
    (d.set k v).get k' = d.get k' := by
  have hkk' : ¬ k = k' := fun hh => h hh.symm
  induction d with
  | nil => rw [set_nil, get_cons, if_neg hkk']
  | cons p rest ih =>
    by_cases hp : p.1 = k
    · have hp' : ¬ p.1 = k' := by rw [hp]; exact hkk'
      rw [set_cons, if_pos hp, ih, get_cons, if_neg hp']
    · by_cases hp' : p.1 = k'
      · rw [set_cons, if_neg hp, get_cons, if_pos hp', get_cons, if_pos hp']
      · rw [set_cons, if_neg hp, get_cons, if_neg hp', ih, get_cons, if_neg hp']

theorem mem_iff_get_isSome (d : Assoc κ ν) (k : κ) :
    d.mem k = (d.get k).isSome := by
  induction d with
  | nil => simp [mem, get]
  | cons p rest ih =>
    by_cases hp : p.1 = k
    · simp [mem, get, hp]
    · simp [mem, get, hp, ih]

theorem get_eq_none_of_mem_false (d : Assoc κ ν) (k : κ) (h : d.mem k = false) :
    d.get k = none := by
  have hs := mem_iff_get_isSome d k
  rw [h] at hs
  cases hg : d.get k with
  | none => rfl
  | some v => rw [hg] at hs; simp at hs

theorem mem_keys_of_mem_keys_set {d : Assoc κ ν} {k a : κ} {v : ν}
    (h : a ∈ keys (set d k v)) : a = k ∨ a ∈ keys d := by
  induction d with
  | nil => simpa [set, keys] using h
  | cons p rest ih =>
    by_cases hp : p.1 = k
    · rw [set] at h
      simp only [hp, if_pos] at h
      rcases ih h with h' | h'
      · exact Or.inl h'
      · exact Or.inr (by simp only [keys, List.map_cons, List.mem_cons]; right; simpa [keys] using h')
    · rw [set] at h
      simp only [hp, if_neg, not_false_iff] at h
      have h2 : a = p.1 ∨ a ∈ keys (set rest k v) := by simpa [keys] using h
      rcases h2 with h' | h'
      · exact Or.inr (by simp [keys, h'])
      · rcases ih h' with h'' | h''
        · exact Or.inl h''
        · exact Or.inr (by simp only [keys, List.map_cons, List.mem_cons]; right; simpa [keys] using h'')

theorem nodup_set (d : Assoc κ ν) (k : κ) (v : ν) (h : Nodup d) :
    Nodup (d.set k v) := by
  induction d with
  | nil => simp [Nodup, keys, set]
  | cons p rest ih =>
    unfold Nodup keys at h
    rw [List.map_cons, List.nodup_cons] at h
    by_cases hp : p.1 = k
    · rw [set]
      simp only [hp, if_pos]
      exact ih h.2
    · rw [set]
      simp only [hp, if_neg, not_false_iff]
      unfold Nodup keys
      rw [List.map_cons, List.nodup_cons]
      refine ⟨?_, ih h.2⟩
      intro hmem
      rcases mem_keys_of_mem_keys_set (by simpa [keys] using hmem) with h' | h'
      · exact hp h'
      · exact h.1 (by simpa [keys] using h')

theorem nodup_union (a b : Assoc κ ν) (h : Nodup a) : Nodup (union a b) := by
  unfold union
  induction b generalizing a with
  | nil => exact h
  | cons p rest ih =>
    simp only [List.foldl_cons]
    exact ih (a.set p.1 p.2) (nodup_set a p.1 p.2 h)

theorem nodup_cons_get_none {p : κ × ν} {rest : Assoc κ ν}
    (h : Nodup (p :: rest)) : get rest p.1 = none := by
  unfold Nodup keys at h
  rw [List.map_cons, List.nodup_cons] at h
  apply get_eq_none_of_mem_false
  rw [mem_iff_get_isSome] at *
  cases hg : get rest p.1 with
  | none => rfl
  | some v =>
    exfalso
    apply h.1
    clear h
    induction rest with
    | nil => simp [get] at hg
    | cons q qs ih =>
      by_cases hq : q.1 = p.1
      · simp [keys, hq]
      · rw [get] at hg
        simp only [hq, if_neg, not_false_iff] at hg
        simp [keys]
        right
        simpa [keys] using ih hg

theorem union_get (a b : Assoc κ ν) (k : κ) (hb : Nodup b) :
    (union a b).get k = ((b.get k).orElse (fun _ => a.get k)) := by
  unfold union
  induction b generalizing a with
  | nil => simp [get]
  | cons p rest ih =>
    simp only [List.foldl_cons]
    have hrest : Nodup rest := by
      unfold Nodup keys at *
      rw [List.map_cons, List.nodup_cons] at hb
      exact hb.2
    rw [ih (a.set p.1 p.2) hrest]
    by_cases hpk : p.1 = k
    · have hrk : get rest k = none := by
        have := nodup_cons_get_none hb
        rw [hpk] at this
        exact this
      rw [hrk, hpk, get_set_self]
      simp [get, hpk]
    · rw [get_set_ne a p.1 k p.2 (fun hh => hpk hh.symm)]
      simp [get, hpk]

end Assoc

/-- C6: the tool adapter operation `execute_code` never throws across
the tool boundary: for every outcome of the awaited evaluation —
completion, deadline exceeded, or any other failure — it returns a
text message (the formatted result, the formatted timeout message, or
the formatted error message respectively), never a propagated
exception.  The handler is total over all outcomes, so no outcome
escapes as an exception. -/
theorem C6_execute_code_always_text :
    (∀ (ct : String) (r : REPLResult),
       execute_code ct (ToolOutcome.completed r) = format_repl_result r 200) ∧
    (∀ ct : String,
       execute_code ct ToolOutcome.timedOut =
         "Error: Code execution timed out after " ++ ct ++ " seconds.") ∧
    (∀ ct m : String,
       execute_code ct (ToolOutcome.failed m) = "Error executing code: " ++ m) :=
  ⟨fun _ _ => rfl, fun _ => rfl, fun _ _ => rfl⟩

/-- C8: the claim says a result with blank output, blank errors, and no
user variables is formatted as the fixed "no output" sentinel.  The
code appends the execution-time part unconditionally before testing
for emptiness, so the sentinel branch is unreachable: the empty result
is formatted as the bare timing line instead. -/
theorem C8_sentinel_unreachable :
    format_repl_result
        { stdout := "", stderr := "", locals := [], execution_time := 0, success := true } 200
      = "Execution time: 0.000s" ∧
    "Execution time: 0.000s" ≠ "Code executed successfully (no output)" := by
  constructor
  · decide
  · decide

/-- C9 (counterexample): constructing a configuration with a negative
timeout, a zero truncation limit and an empty delegate identifier
succeeds — `RLMConfig` is a plain dataclass with no `__post_init__`,
so no error is raised, contradicting the claim that such construction
fails immediately. -/
theorem C9_counterexample :
    mkRLMConfig (-1) 0 (some "") = Except.ok ⟨-1, 0, some ""⟩ := rfl

/-- C9 (amended): only the dependency bundle validates at construction
time (`None` context raises `ValueError`); the configuration dataclass
accepts any field values without checks; the delegate-query capability
`llm_query` is installed into the restricted globals exactly when the
configured delegate identifier is present and non-empty (Python
truthiness), so an absent — or empty — identifier disables it. -/
theorem C9_construction_validation :
    (∀ cfg : RLMConfig,
       mkRLMDependencies Option.none cfg = Except.error "context cannot be None") ∧
    (∀ (t : Int) (tr : Nat) (sm : Option String),
       mkRLMConfig t tr sm = Except.ok ⟨t, tr, sm⟩) ∧
    (∀ (c : Option Val) (cfg : RLMConfig),
       Assoc.get (initREPL c cfg).globals "llm_query" =
         if pyTruthyStr cfg.sub_model then some (Val.builtin "llm_query") else Option.none) := by
  refine ⟨fun cfg => rfl, fun t tr sm => rfl, fun c cfg => ?_⟩
  cases hsm : pyTruthyStr cfg.sub_model with
  | true =>
    simp only [initREPL, hsm, if_pos]
    decide
  | false =>
    simp only [initREPL, hsm, if_neg]
    decide

/-- C10: the locals snapshot inside each returned result is a copy of
the session store taken at the end of that call, and later calls on
the same session — even ones that rebind a name, making the new store
differ at that name — leave the earlier result's binding map
unchanged. -/
theorem C10_snapshot_frame :
    ∀ (env : REPLEnv) (c1 c2 : List Stmt) (t1 t2 : Nat),
      (execute env c1 t1).2.locals = (execute env c1 t1).1.locals ∧
      (∀ x : String,
        Assoc.get ((execute (execute env c1 t1).1 c2 t2).1.locals) x ≠
            Assoc.get ((execute env c1 t1).1.locals) x →
          Assoc.get ((execute env c1 t1).2.locals) x =
            Assoc.get ((execute env c1 t1).1.locals) x) := by
  intro env c1 c2 t1 t2
  exact ⟨rfl, fun x _ => rfl⟩

/-- Witness for C10 at a concrete session: the second call overwrites
`x`, yet the first call's snapshot still maps `x` to the first value. -/
theorem C10_snapshot_frame_witness :
    Assoc.get ((execute (execute envDemo [Stmt.assign "x" (Expr.lit (Val.int 1))] 0).1
        [Stmt.assign "x" (Expr.lit (Val.int 2))] 0).1.locals) "x" ≠
      Assoc.get ((execute envDemo [Stmt.assign "x" (Expr.lit (Val.int 1))] 0).1.locals) "x" ∧
    Assoc.get ((execute envDemo [Stmt.assign "x" (Expr.lit (Val.int 1))] 0).2.locals) "x" =
      Assoc.get ((execute envDemo [Stmt.assign "x" (Expr.lit (Val.int 1))] 0).1.locals) "x" :=
  ⟨by decide,
   (C10_snapshot_frame envDemo [Stmt.assign "x" (Expr.lit (Val.int 1))]
     [Stmt.assign "x" (Expr.lit (Val.int 2))] 0 0).2 "x" (by decide)⟩

/-- C3: the returned stdout/stderr texts are exactly the truncation of
the raw captured texts, and truncation returns text within the limit
unchanged while longer text becomes a prefix of the raw text followed
by the marker, with total length at most the limit plus the marker
length. -/
theorem C3_truncation :
    (∀ (env : REPLEnv) (stmts : List Stmt) (t : Nat),
       (execute env stmts t).2.stdout =
           truncOut env.config.truncate_output_chars (executeRaw env stmts).stdout ∧
       (execute env stmts t).2.stderr =
           truncOut env.config.truncate_output_chars (executeRaw env stmts).stderr) ∧
    (∀ (L : Nat) (s : String),
       (s.length ≤ L → truncOut L s = s) ∧
       (s.length > L →
         (truncOut L s).length ≤ L + TRUNCATION_MARKER.length ∧
         ∃ p q : String, s = p ++ q ∧ truncOut L s = p ++ TRUNCATION_MARKER)) := by
  constructor
  · intro env stmts t
    exact ⟨rfl, rfl⟩
  · intro L s
    constructor
    · intro hle
      unfold truncOut
      rw [if_neg (by omega)]
    · intro hgt
      unfold truncOut
      rw [if_pos hgt]
      refine ⟨?_, takeChars L s, dropChars L s, (takeChars_append_dropChars L s).symm, rfl⟩
      rw [String.length_append, takeChars_length]
      have : min L s.length = L := Nat.min_eq_left (Nat.le_of_lt hgt)
      omega

/-- Witness for C3: with limit 5, short text is unchanged and long text
is cut to five characters plus the marker. -/
theorem C3_truncation_witness :
    truncOut 5 "ab" = "ab" ∧
    ((truncOut 5 "abcdefgh").length ≤ 5 + TRUNCATION_MARKER.length ∧
      ∃ p q : String, "abcdefgh" = p ++ q ∧ truncOut 5 "abcdefgh" = p ++ TRUNCATION_MARKER) :=
  ⟨(C3_truncation.2 5 "ab").1 (by decide),
   (C3_truncation.2 5 "abcdefgh").2 (by decide)⟩

/-- C5: the registry is keyed by bundle identity: a lookup that finds
an existing session returns it without touching the registry (no
re-materialization); two distinct identities — even carrying equal
bundles — get two distinct registry entries, each retrievable
afterwards; and updating the entry of one key (as a call on that
session does) leaves the session stored under any other key
untouched. -/
theorem C5_registry_identity :
    (∀ (reg : Registry) (k : Nat) (env : REPLEnv) (deps : RLMDependencies) (sm : Option String),
       Assoc.get reg k = some env →
       _get_or_create_repl reg k deps sm = (reg, env)) ∧
    (∀ (reg : Registry) (k1 k2 : Nat) (d : RLMDependencies) (sm : Option String),
       k1 ≠ k2 → Assoc.get reg k1 = Option.none → Assoc.get reg k2 = Option.none →
       Assoc.get (_get_or_create_repl (_get_or_create_repl reg k1 d sm).1 k2 d sm).1 k1 =
           some (_get_or_create_repl reg k1 d sm).2 ∧
       Assoc.get (_get_or_create_repl (_get_or_create_repl reg k1 d sm).1 k2 d sm).1 k2 =
           some (_get_or_create_repl (_get_or_create_repl reg k1 d sm).1 k2 d sm).2) ∧
    (∀ (reg : Registry) (k1 k2 : Nat) (env : REPLEnv) (code : List Stmt) (t : Nat),
       k1 ≠ k2 →
       Assoc.get (Assoc.set reg k1 (execute env code t).1) k2 = Assoc.get reg k2) := by
  refine ⟨?_, ?_, ?_⟩
  · intro reg k env deps sm h
    unfold _get_or_create_repl
    rw [h]
  · intro reg k1 k2 d sm hne h1 h2
    have e1 : _get_or_create_repl reg k1 d sm =
        (Assoc.set reg k1 (initREPL d.context
          (if pyTruthyStr sm && !pyTruthyStr d.config.sub_model then
            { code_timeout := 60, truncate_output_chars := 50000, sub_model := sm }
          else d.config)),
         initREPL d.context
          (if pyTruthyStr sm && !pyTruthyStr d.config.sub_model then
            { code_timeout := 60, truncate_output_chars := 50000, sub_model := sm }
          else d.config)) := by
      unfold _get_or_create_repl
      rw [h1]
    have h2' : Assoc.get (_get_or_create_repl reg k1 d sm).1 k2 = Option.none := by
      rw [e1]
      rw [Assoc.get_set_ne reg k1 k2 _ (fun hh => hne hh.symm)]
      exact h2
    have e2 : ∀ r : Registry, Assoc.get r k2 = Option.none →
        _get_or_create_repl r k2 d sm =
        (Assoc.set r k2 (initREPL d.context
          (if pyTruthyStr sm && !pyTruthyStr d.config.sub_model then
            { code_timeout := 60, truncate_output_chars := 50000, sub_model := sm }
          else d.config)),
         initREPL d.context
          (if pyTruthyStr sm && !pyTruthyStr d.config.sub_model then
            { code_timeout := 60, truncate_output_chars := 50000, sub_model := sm }
          else d.config)) := by
      intro r hr
      unfold _get_or_create_repl
      rw [hr]
    constructor
    · rw [e2 _ h2', e1]
      rw [Assoc.get_set_ne _ k2 k1 _ hne]
      rw [Assoc.get_set_self]
    · rw [e2 _ h2']
      rw [Assoc.get_set_self]
  · intro reg k1 k2 env code t hne
    exact Assoc.get_set_ne reg k1 k2 _ (fun hh => hne hh.symm)

/-- Witness for C5 at a concrete registry: key 1 found idempotently;
keys 2 and 3 with equal bundles create two sessions; updating key 2
leaves key 3 untouched. -/
theorem C5_registry_identity_witness :
    _get_or_create_repl [(1, envDemo)] 1
        ⟨some (Val.str "ctx"), RLMConfig.defaults⟩ Option.none = ([(1, envDemo)], envDemo) ∧
    (Assoc.get (_get_or_create_repl (_get_or_create_repl [] 2
          ⟨some (Val.str "ctx"), RLMConfig.defaults⟩ Option.none).1 3
          ⟨some (Val.str "ctx"), RLMConfig.defaults⟩ Option.none).1 2 =
        some (_get_or_create_repl [] 2
          ⟨some (Val.str "ctx"), RLMConfig.defaults⟩ Option.none).2) ∧
    Assoc.get (Assoc.set [(2, envDemo), (3, envDemo)] 2
        (execute envDemo [Stmt.assign "x" (Expr.lit (Val.int 1))] 0).1) 3 =
      Assoc.get [(2, envDemo), (3, envDemo)] 3 := by
  refine ⟨?_, ?_, ?_⟩
  · exact C5_registry_identity.1 [(1, envDemo)] 1 envDemo
      ⟨some (Val.str "ctx"), RLMConfig.defaults⟩ Option.none (by decide)
  · exact ((C5_registry_identity.2.1 [] 2 3
      ⟨some (Val.str "ctx"), RLMConfig.defaults⟩ Option.none (by decide) rfl rfl)).1
  · exact C5_registry_identity.2.2 [(2, envDemo), (3, envDemo)] 2 3 envDemo
      [Stmt.assign "x" (Expr.lit (Val.int 1))] 0 (by decide)

namespace Assoc

/-- Looking up a key in a filtered association list yields nothing when
the predicate rejects every entry with that key. -/
theorem get_filter_eq_none {κ ν : Type} [DecidableEq κ] {p : κ × ν → Bool}
    {l : Assoc κ ν} {k : κ} (hk : ∀ v : ν, p (k, v) = false) :
    Assoc.get (List.filter p l) k = Option.none := by
  induction l with
  | nil => rfl
  | cons q rest ih =>
    by_cases hq : p q = true
    · rw [List.filter_cons_of_pos hq, Assoc.get_cons]
      have hqk : ¬ q.1 = k := by
        intro hh
        have hq' : p q = false := by
          rw [show q = (k, q.2) from by rw [← hh]]
          exact hk q.2
        rw [hq] at hq'
        exact Bool.true_eq_false.mp hq'
      rw [if_neg hqk]
      exact ih
    · rw [List.filter_cons_of_neg hq]
      exact ih

end Assoc

/-- C7 (counterexample): with a freshly created session, the locals
snapshot in the result of an (empty) call contains the reserved name
`context` — the snapshot is a full copy of the variable store, not a
copy excluding internal/reserved names as claimed. -/
theorem C7_counterexample :
    Assoc.get ((execute envDemo [] 0).2.locals) "context" = some (Val.str "ctx") := by
  decide

/-- C7 (amended): the result's locals snapshot is the full store as it
stands at the end of the call (reserved names included); the exclusion
of internal/reserved names happens in the result formatter, whose
user-variable view never contains an underscore-prefixed name or any
of `context`, `json`, `re`, `os` — so reserved names never appear
among the variables reported for a call. -/
theorem C7_snapshot_and_report :
    (∀ (env : REPLEnv) (stmts : List Stmt) (t : Nat),
       (execute env stmts t).2.locals = (execute env stmts t).1.locals) ∧
    (∀ (locs : NS) (k : String),
       (pyStartsWith k "_" || ["context", "json", "re", "os"].contains k) = true →
       Assoc.get (userVars locs) k = Option.none) := by
  constructor
  · intro env stmts t
    rfl
  · intro locs k h
    unfold userVars
    apply Assoc.get_filter_eq_none
    intro v
    rcases Bool.or_eq_true_iff.mp h with h1 | h1
    · rw [h1]
      simp
    · rw [h1]
      simp

/-- Witness for C7 at concrete inputs: the snapshot of a call equals
the end-of-call store, and the reserved names `context` and `_tmp` are
absent from the formatter's user-variable view of a store containing
them. -/
theorem C7_snapshot_and_report_witness :
    (execute envDemo [] 0).2.locals = (execute envDemo [] 0).1.locals ∧
    Assoc.get (userVars [("context", Val.str "ctx"), ("_tmp", Val.int 1), ("y", Val.int 2)])
        "context" = Option.none ∧
    Assoc.get (userVars [("context", Val.str "ctx"), ("_tmp", Val.int 1), ("y", Val.int 2)])
        "_tmp" = Option.none :=
  ⟨C7_snapshot_and_report.1 envDemo [] 0,
   C7_snapshot_and_report.2 [("context", Val.str "ctx"), ("_tmp", Val.int 1), ("y", Val.int 2)]
     "context" (by decide),
   C7_snapshot_and_report.2 [("context", Val.str "ctx"), ("_tmp", Val.int 1), ("y", Val.int 2)]
     "_tmp" (by decide)⟩

/-- Every raw execution outcome is either a success with empty
captured stderr, or a failure whose captured stderr is exactly the
formatted text of the raised error. -/
theorem executeRaw_outcome (env : REPLEnv) (stmts : List Stmt) :
    ((executeRaw env stmts).success = true ∧ (executeRaw env stmts).stderr = "") ∨
    (∃ e : PyErr, (executeRaw env stmts).success = false ∧
      (executeRaw env stmts).stderr = "\nError: " ++ errStr e) := by
  simp only [executeRaw]
  split
  · exact Or.inl ⟨rfl, rfl⟩
  · split
    · exact Or.inl ⟨rfl, rfl⟩
    · exact Or.inr ⟨_, rfl, rfl⟩

/-- C2: the sandbox run operation never raises to its caller — it is a
total function into results — and any failure raised while running the
evaluated code is captured into the returned error text with
`success = false`; in particular, calling the denied capability `eval`
(bound to the `None` placeholder by the blocked-builtin table) yields
a captured `TypeError` text and `success = false`, not a crash. -/
theorem C2_errors_captured :
    (∀ (env : REPLEnv) (stmts : List Stmt) (t : Nat),
       (execute env stmts t).2.success = false →
       ∃ e : PyErr, (execute env stmts t).2.stderr =
         truncOut env.config.truncate_output_chars ("\nError: " ++ errStr e)) ∧
    (∀ (env : REPLEnv) (t : Nat),
       Assoc.get (Assoc.union env.globals env.locals) "eval" = Option.none →
       (execute env [Stmt.exprStmt (Expr.call "eval" (Expr.lit (Val.str "1+1")))] t).2.success
           = false ∧
       (execute env [Stmt.exprStmt (Expr.call "eval" (Expr.lit (Val.str "1+1")))] t).2.stderr =
         truncOut env.config.truncate_output_chars
           ("\nError: " ++ (sq ++ "NoneType" ++ sq ++ " object is not callable"))) := by
  constructor
  · intro env stmts t h
    rcases executeRaw_outcome env stmts with ⟨hs, _⟩ | ⟨e, _, hserr⟩
    · exfalso
      have : (execute env stmts t).2.success = true := hs
      rw [h] at this
      exact Bool.false_ne_true this
    · exact ⟨e, by show truncOut _ (executeRaw env stmts).stderr = _; rw [hserr]⟩
  · intro env t h
    have himp : is_import_line (Stmt.toLine
        (Stmt.exprStmt (Expr.call "eval" (Expr.lit (Val.str "1+1"))))) = false := by decide
    have hcb : isCommentOrBlankLine (Stmt.toLine
        (Stmt.exprStmt (Expr.call "eval" (Expr.lit (Val.str "1+1"))))) = false := by decide
    have hexpr : is_expression (pyStrip (Stmt.toLine
        (Stmt.exprStmt (Expr.call "eval" (Expr.lit (Val.str "1+1")))))) = true := by decide
    have hbuilt : Assoc.get createBuiltins "eval" = some Val.noneV := by decide
    have hdisp : _execute_with_expression_display
        [Stmt.exprStmt (Expr.call "eval" (Expr.lit (Val.str "1+1")))]
        (Assoc.union env.globals env.locals) =
        ⟨Assoc.union env.globals env.locals, "",
         some (PyErr.typeError (sq ++ "NoneType" ++ sq ++ " object is not callable"))⟩ := by
      unfold _execute_with_expression_display
      simp only [List.map_cons, List.map_nil, List.filter_cons, hcb, Bool.not_false, if_true,
        List.filter_nil, List.getLast?_singleton, hexpr, if_pos, List.length_singleton]
      rw [if_neg (by omega)]
      simp only [evalLineAsExpr, evalExpr, lookupName, h, hbuilt, applyBuiltin, isSynOrNameErr]
      rfl
    have hraw : executeRaw env [Stmt.exprStmt (Expr.call "eval" (Expr.lit (Val.str "1+1")))] =
        ⟨env.globals, env.locals, "",
         "\nError: " ++ (sq ++ "NoneType" ++ sq ++ " object is not callable"), false⟩ := by
      unfold executeRaw
      simp only [List.filter_cons, himp, Bool.not_false, if_true, Bool.false_eq_true,
        if_false, List.filter_nil, List.foldl_nil, List.isEmpty_cons, hdisp]
      rfl
    constructor
    · show (executeRaw env _).success = false
      rw [hraw]
    · show truncOut _ (executeRaw env _).stderr = _
      rw [hraw]

/-- Witness for C2 at the demonstration session: calling `eval` inside
submitted code is captured as a failed result with the `TypeError`
text, and the failure hypothesis of the general capture statement is
discharged on the same run. -/
theorem C2_errors_captured_witness :
    ((execute envDemo [Stmt.exprStmt (Expr.call "eval" (Expr.lit (Val.str "1+1")))] 0).2.success
        = false ∧
     (execute envDemo [Stmt.exprStmt (Expr.call "eval" (Expr.lit (Val.str "1+1")))] 0).2.stderr =
       truncOut envDemo.config.truncate_output_chars
         ("\nError: " ++ (sq ++ "NoneType" ++ sq ++ " object is not callable"))) ∧
    (∃ e : PyErr,
      (execute envDemo [Stmt.exprStmt (Expr.call "eval" (Expr.lit (Val.str "1+1")))] 0).2.stderr =
        truncOut envDemo.config.truncate_output_chars ("\nError: " ++ errStr e)) :=
  ⟨C2_errors_captured.2 envDemo 0 (by decide),
   C2_errors_captured.1 envDemo [Stmt.exprStmt (Expr.call "eval" (Expr.lit (Val.str "1+1")))] 0
     (by decide)⟩

namespace Assoc

theorem nodup_of_nodup_cons {κ ν : Type} [DecidableEq κ] {p : κ × ν} {rest : Assoc κ ν}
    (h : Nodup (p :: rest)) : Nodup rest := by
  unfold Nodup keys at *
  rw [List.map_cons, List.nodup_cons] at h
  exact h.2

end Assoc

/-- Lookup after the merge-back loop: keys present in the globals are
never merged (the store keeps its old binding); other keys take the
combined namespace's binding when present, the old binding otherwise. -/
theorem mergeLocals_get (combined : NS) (locs globs : NS) (k : String)
    (hC : Assoc.Nodup combined) :
    Assoc.get (mergeLocals locs globs combined) k =
      if Assoc.mem globs k = true then Assoc.get locs k
      else ((Assoc.get combined k).orElse (fun _ => Assoc.get locs k)) := by
  induction combined generalizing locs with
  | nil =>
    by_cases hg : Assoc.mem globs k = true
    · rw [if_pos hg]
      rfl
    · rw [if_neg hg]
      show Assoc.get locs k = (Assoc.get ([] : NS) k).orElse (fun _ => Assoc.get locs k)
      rw [Assoc.get_nil]
      rfl
  | cons p rest ih =>
    have hrest : Assoc.Nodup rest := Assoc.nodup_of_nodup_cons hC
    have hlocs : ∀ locs2 : NS,
        Assoc.get (if Assoc.mem globs p.1 = true then locs2 else Assoc.set locs2 p.1 p.2) k =
          (if p.1 = k ∧ ¬ Assoc.mem globs k = true then some p.2 else Assoc.get locs2 k) := by
      intro locs2
      by_cases hp : p.1 = k
      · by_cases hg : Assoc.mem globs k = true
        · have hgp : Assoc.mem globs p.1 = true := by rw [hp]; exact hg
          rw [if_pos hgp, if_neg (by simp [hg])]
        · have hgp : ¬ Assoc.mem globs p.1 = true := by rw [hp]; exact hg
          rw [if_neg hgp, if_pos ⟨hp, hg⟩, hp, Assoc.get_set_self]
      · have hrhs : ¬ (p.1 = k ∧ ¬ Assoc.mem globs k = true) := fun hh => hp hh.1
        by_cases hgp : Assoc.mem globs p.1 = true
        · rw [if_pos hgp, if_neg hrhs]
        · rw [if_neg hgp, if_neg hrhs, Assoc.get_set_ne locs2 p.1 k p.2 (fun hh => hp hh.symm)]
    show Assoc.get (mergeLocals
        (if Assoc.mem globs p.1 = true then locs else Assoc.set locs p.1 p.2) globs rest) k = _
    rw [ih _ hrest]
    by_cases hg : Assoc.mem globs k = true
    · rw [if_pos hg, if_pos hg, hlocs locs, if_neg (by simp [hg])]
    · rw [if_neg hg, if_neg hg]
      by_cases hp : p.1 = k
      · have hrk : Assoc.get rest k = Option.none := by
          have h0 := Assoc.nodup_cons_get_none hC
          rw [hp] at h0
          exact h0
        rw [hrk, Assoc.get_cons, if_pos hp]
        show Assoc.get (if Assoc.mem globs p.1 = true then locs else Assoc.set locs p.1 p.2) k
            = (some p.2).orElse (fun _ => Assoc.get locs k)
        rw [hlocs locs, if_pos ⟨hp, hg⟩]
        rfl
      · rw [Assoc.get_cons, if_neg hp]
        cases hrk : Assoc.get rest k with
        | some w => rfl
        | none =>
          show Assoc.get (if Assoc.mem globs p.1 = true then locs else Assoc.set locs p.1 p.2) k
              = (Option.none).orElse (fun _ => Assoc.get locs k)
          rw [hlocs locs, if_neg (by simp [hp])]
          rfl

/-- The merge-back loop preserves key uniqueness of the store. -/
theorem nodup_mergeLocals (combined : NS) (locs globs : NS) (h : Assoc.Nodup locs) :
    Assoc.Nodup (mergeLocals locs globs combined) := by
  induction combined generalizing locs with
  | nil => exact h
  | cons p rest ih =>
    show Assoc.Nodup (List.foldl _ _ (p :: rest))
    rw [List.foldl_cons]
    by_cases hgp : Assoc.mem globs p.1 = true
    · rw [if_pos hgp]
      exact ih locs h
    · rw [if_neg hgp]
      exact ih _ (Assoc.nodup_set locs p.1 p.2 h)

/-- `findIdx?` skips a block on which the predicate is everywhere false. -/
theorem findIdx?_append_of_false {α : Type} (p : α → Bool) (A B : List α) (i : Nat)
    (h : ∀ x ∈ A, p x = false) :
    List.findIdx? p (A ++ B) i = List.findIdx? p B (i + A.length) := by
  induction A generalizing i with
  | nil => simp
  | cons a as ih =>
    rw [List.cons_append, List.findIdx?, h a (by simp)]
    simp only [Bool.false_eq_true, if_false]
    rw [ih (i + 1) (fun x hx => h x (by simp [hx]))]
    congr 1
    simp only [List.length_cons]
    omega

/-- A single non-expression line is executed as plain statements. -/
theorem display_single_not_expr (s : Stmt) (ns : NS)
    (hcb : isCommentOrBlankLine (Stmt.toLine s) = false)
    (hne : is_expression (pyStrip (Stmt.toLine s)) = false) :
    _execute_with_expression_display [s] ns = execStmts [s] ⟨ns, "", Option.none⟩ := by
  unfold _execute_with_expression_display
  simp only [List.map_cons, List.map_nil, List.filter_cons, hcb, Bool.not_false, if_true,
    List.filter_nil, List.getLast?_singleton, hne, Bool.false_eq_true, if_false]

/-- A single expression line with a non-`None` value is echoed. -/
theorem display_single_expr (e : Expr) (ns : NS) (v : Val)
    (hcb : isCommentOrBlankLine (Stmt.toLine (Stmt.exprStmt e)) = false)
    (hex : is_expression (pyStrip (Stmt.toLine (Stmt.exprStmt e))) = true)
    (heval : evalExpr ns e = Except.ok v)
    (hv : v ≠ Val.noneV) :
    _execute_with_expression_display [Stmt.exprStmt e] ns =
      ⟨ns, reprVal v ++ "\n", Option.none⟩ := by
  unfold _execute_with_expression_display
  simp only [List.map_cons, List.map_nil, List.filter_cons, hcb, Bool.not_false, if_true,
    List.filter_nil, List.getLast?_singleton, hex, if_pos, List.length_singleton]
  rw [if_neg (by omega)]
  simp only [evalLineAsExpr, heval]
  rw [if_neg hv]
  rfl

/-- A single semicolon-joined pair of expression statements that passes
the expression gate: `eval` raises `SyntaxError`, the fallback re-runs
the whole line as statements, and (both expressions evaluating) the
call succeeds with no echo. -/
theorem display_seq_fallback (a b : Expr) (ns : NS) (va vb : Val)
    (hcb : isCommentOrBlankLine (Stmt.toLine (Stmt.seqStmt a b)) = false)
    (hex : is_expression (pyStrip (Stmt.toLine (Stmt.seqStmt a b))) = true)
    (ha : evalExpr ns a = Except.ok va)
    (hb : evalExpr ns b = Except.ok vb) :
    _execute_with_expression_display [Stmt.seqStmt a b] ns = ⟨ns, "", Option.none⟩ := by
  unfold _execute_with_expression_display
  simp only [List.map_cons, List.map_nil, List.filter_cons, hcb, Bool.not_false, if_true,
    List.filter_nil, List.getLast?_singleton, hex, if_pos, List.length_singleton]
  rw [if_neg (by omega)]
  simp only [evalLineAsExpr, isSynOrNameErr, execStmts, List.foldl_cons, List.foldl_nil,
    execStmt, ha, hb]
  rw [if_pos trivial]

/-- The general trailing-expression echo at the display level: earlier
lines are non-comment, textually distinct from the trailing line, and
execute without error; the trailing line passes the expression gate and
evaluates to a non-`None` value; then the captured output is the
earlier output followed by the value's `repr` and a newline. -/
theorem display_echo (pre : List Stmt) (e : Expr) (ns ns1 : NS) (out1 : String) (v : Val)
    (h_cb : ∀ s ∈ pre, isCommentOrBlankLine (Stmt.toLine s) = false)
    (h_cbe : isCommentOrBlankLine (Stmt.toLine (Stmt.exprStmt e)) = false)
    (h_expr : is_expression (pyStrip (Stmt.toLine (Stmt.exprStmt e))) = true)
    (h_uniq : ∀ s ∈ pre, pyStrip (Stmt.toLine s) ≠ pyStrip (Stmt.toLine (Stmt.exprStmt e)))
    (h_pre : execStmts pre ⟨ns, "", Option.none⟩ = ⟨ns1, out1, Option.none⟩)
    (h_eval : evalExpr ns1 e = Except.ok v)
    (h_v : v ≠ Val.noneV) :
    _execute_with_expression_display (pre ++ [Stmt.exprStmt e]) ns =
      ⟨ns1, out1 ++ reprVal v ++ "\n", Option.none⟩ := by
  have hfilter : (pre ++ [Stmt.exprStmt e]).filter
      (fun s => !isCommentOrBlankLine (Stmt.toLine s)) = pre ++ [Stmt.exprStmt e] := by
    rw [List.filter_eq_self]
    intro a ha
    rcases List.mem_append.mp ha with h | h
    · rw [h_cb a h]
      rfl
    · rw [List.mem_singleton.mp h, h_cbe]
      rfl
  have hlast : (pre ++ [Stmt.exprStmt e]).getLast? = some (Stmt.exprStmt e) :=
    List.getLast?_concat _
  cases hpre : pre with
  | nil =>
    subst hpre
    have h0 : ns = ns1 ∧ "" = out1 := by
      have hp : (⟨ns, "", Option.none⟩ : ExecSt) = ⟨ns1, out1, Option.none⟩ := h_pre
      exact ⟨congrArg ExecSt.ns hp, congrArg ExecSt.out hp⟩
    rcases h0 with ⟨h0a, h0b⟩
    subst h0a
    subst h0b
    rw [List.nil_append]
    rw [display_single_expr e ns v h_cbe h_expr h_eval h_v]
    rfl
  | cons p0 pres =>
    rw [← hpre]
    have hprne : pre ≠ [] := by rw [hpre]; exact List.cons_ne_nil p0 pres
    have hlen : (pre ++ [Stmt.exprStmt e]).length > 1 := by
      rw [List.length_append, List.length_singleton]
      have : 0 < pre.length := List.length_pos.mpr hprne
      omega
    have hpos : pre.length > 0 := List.length_pos.mpr hprne
    have hfind : List.findIdx?
        (fun l => pyStrip l = pyStrip (Stmt.toLine (Stmt.exprStmt e)))
        ((pre ++ [Stmt.exprStmt e]).map Stmt.toLine) = some pre.length := by
      rw [List.map_append]
      rw [findIdx?_append_of_false _ _ _ 0
        (by
          intro x hx
          rcases List.mem_map.mp hx with ⟨s, hs, hsx⟩
          rw [← hsx]
          exact decide_eq_false (h_uniq s hs))]
      rw [List.map_singleton, List.findIdx?]
      simp [List.length_map]
    have htake : (pre ++ [Stmt.exprStmt e]).take pre.length = pre :=
      List.take_left pre [Stmt.exprStmt e]
    unfold _execute_with_expression_display
    simp only [hfilter, hlast, h_expr, if_pos, hfind]
    rw [if_pos hlen, if_pos hpos, htake, h_pre]
    simp only [evalLineAsExpr, h_eval]
    rw [if_neg h_v]

/-- For a fragment without import lines whose display run raises no
error, `executeRaw` keeps the globals, merges the display namespace
into the store, captures the display output and succeeds. -/
theorem executeRaw_no_imports_ok (env : REPLEnv) (stmts : List Stmt) (st : ExecSt)
    (himp : ∀ s ∈ stmts, is_import_line (Stmt.toLine s) = false)
    (hne : stmts ≠ [])
    (hdisp : _execute_with_expression_display stmts (Assoc.union env.globals env.locals) = st)
    (herr : st.err = Option.none) :
    executeRaw env stmts =
      ⟨env.globals, mergeLocals env.locals env.globals st.ns, st.out, "", true⟩ := by
  have h1 : stmts.filter (fun s => is_import_line (Stmt.toLine s)) = [] := by
    rw [List.filter_eq_nil_iff]
    intro a ha
    simp [himp a ha]
  have h2 : stmts.filter (fun s => !is_import_line (Stmt.toLine s)) = stmts := by
    rw [List.filter_eq_self]
    intro a ha
    rw [himp a ha]
    rfl
  have h3 : stmts.isEmpty = false := by
    cases stmts with
    | nil => exact absurd rfl hne
    | cons a as => rfl
  simp only [executeRaw, h1, h2, h3, List.foldl_nil, Bool.false_eq_true, if_false]
  rw [hdisp]
  rcases st with ⟨ns0, out0, err0⟩
  have he : err0 = Option.none := herr
  subst he
  rfl

/-- Projections of `execute` in terms of `executeRaw`. -/
theorem execute_fst (env : REPLEnv) (c : List Stmt) (t : Nat) :
    (execute env c t).1 =
      { config := env.config, globals := (executeRaw env c).globals,
        locals := (executeRaw env c).locals } := rfl

theorem execute_snd_stdout (env : REPLEnv) (c : List Stmt) (t : Nat) :
    (execute env c t).2.stdout =
      truncOut env.config.truncate_output_chars (executeRaw env c).stdout := rfl

theorem execute_snd_success (env : REPLEnv) (c : List Stmt) (t : Nat) :
    (execute env c t).2.success = (executeRaw env c).success := rfl

/-- C4: state persists within a session.  For a well-formed session and
a plain variable name `x` (one the line heuristics treat as a variable:
non-blank, not comment/import-like, no `=`, not a keyword head, equal
to its own strip, and not a key of the restricted globals), running the
fragment `x = <literal v>` merges the binding into the persistent store
at the end of the call, and a subsequent call on the resulting session
submitting the bare line `x` observes the previously bound value: its
captured output echoes `repr(v)` and the call succeeds. -/
theorem C4_state_persistence (env : REPLEnv) (x : String) (v : Val) (t1 t2 : Nat)
    (h_wg : Assoc.Nodup env.globals) (h_wl : Assoc.Nodup env.locals)
    (h_impa : is_import_line (Stmt.toLine (Stmt.assign x (Expr.lit v))) = false)
    (h_cba : isCommentOrBlankLine (Stmt.toLine (Stmt.assign x (Expr.lit v))) = false)
    (h_nexpr : is_expression (pyStrip (Stmt.toLine (Stmt.assign x (Expr.lit v)))) = false)
    (h_impx : is_import_line x = false)
    (h_cbx : isCommentOrBlankLine x = false)
    (h_strip : pyStrip x = x)
    (h_expr : is_expression x = true)
    (h_xg : Assoc.mem env.globals x = false)
    (h_v : v ≠ Val.noneV)
    (h_len : (reprVal v ++ "\n").length ≤ env.config.truncate_output_chars) :
    Assoc.get ((execute env [Stmt.assign x (Expr.lit v)] t1).1.locals) x = some v ∧
    (execute (execute env [Stmt.assign x (Expr.lit v)] t1).1
        [Stmt.exprStmt (Expr.var x)] t2).2.stdout = reprVal v ++ "\n" ∧
    (execute (execute env [Stmt.assign x (Expr.lit v)] t1).1
        [Stmt.exprStmt (Expr.var x)] t2).2.success = true := by
  have hCn : Assoc.Nodup (Assoc.union env.globals env.locals) :=
    Assoc.nodup_union env.globals env.locals h_wg
  have hCset : Assoc.Nodup (Assoc.set (Assoc.union env.globals env.locals) x v) :=
    Assoc.nodup_set _ x v hCn
  have hd1 : _execute_with_expression_display [Stmt.assign x (Expr.lit v)]
      (Assoc.union env.globals env.locals) =
      ⟨Assoc.set (Assoc.union env.globals env.locals) x v, "", Option.none⟩ := by
    rw [display_single_not_expr (Stmt.assign x (Expr.lit v)) _ h_cba h_nexpr]
    rfl
  have hraw1 : executeRaw env [Stmt.assign x (Expr.lit v)] =
      ⟨env.globals,
       mergeLocals env.locals env.globals
         (Assoc.set (Assoc.union env.globals env.locals) x v), "", "", true⟩ :=
    executeRaw_no_imports_ok env _ _
      (by intro s hs; rw [List.mem_singleton.mp hs]; exact h_impa)
      (List.cons_ne_nil _ _) hd1 rfl
  have hlocget : Assoc.get (mergeLocals env.locals env.globals
      (Assoc.set (Assoc.union env.globals env.locals) x v)) x = some v := by
    rw [mergeLocals_get _ _ _ _ hCset, if_neg (by rw [h_xg]; exact Bool.false_ne_true)]
    rw [Assoc.get_set_self]
    rfl
  have hnl1 : Assoc.Nodup (mergeLocals env.locals env.globals
      (Assoc.set (Assoc.union env.globals env.locals) x v)) :=
    nodup_mergeLocals _ _ _ h_wl
  have hloc1 : (execute env [Stmt.assign x (Expr.lit v)] t1).1.locals =
      mergeLocals env.locals env.globals
        (Assoc.set (Assoc.union env.globals env.locals) x v) := by
    rw [execute_fst, hraw1]
  have hglob1 : (execute env [Stmt.assign x (Expr.lit v)] t1).1.globals = env.globals := by
    rw [execute_fst, hraw1]
  have hconf1 : (execute env [Stmt.assign x (Expr.lit v)] t1).1.config = env.config := by
    rw [execute_fst]
  generalize hE : (execute env [Stmt.assign x (Expr.lit v)] t1).1 = E1 at *
  have hcomb2 : Assoc.get (Assoc.union E1.globals E1.locals) x = some v := by
    rw [hglob1, hloc1, Assoc.union_get _ _ _ hnl1, hlocget]
    rfl
  have heval2 : evalExpr (Assoc.union E1.globals E1.locals) (Expr.var x) = Except.ok v := by
    simp only [evalExpr, lookupName, hcomb2]
  have hd2 : _execute_with_expression_display [Stmt.exprStmt (Expr.var x)]
      (Assoc.union E1.globals E1.locals) =
      ⟨Assoc.union E1.globals E1.locals, reprVal v ++ "\n", Option.none⟩ :=
    display_single_expr (Expr.var x) _ v h_cbx
      (by rw [show Stmt.toLine (Stmt.exprStmt (Expr.var x)) = x from rfl, h_strip]
          exact h_expr)
      heval2 h_v
  have hraw2 : executeRaw E1 [Stmt.exprStmt (Expr.var x)] =
      ⟨E1.globals,
       mergeLocals E1.locals E1.globals (Assoc.union E1.globals E1.locals),
       reprVal v ++ "\n", "", true⟩ :=
    executeRaw_no_imports_ok E1 _ _
      (by intro s hs; rw [List.mem_singleton.mp hs]; exact h_impx)
      (List.cons_ne_nil _ _) hd2 rfl
  refine ⟨by rw [hloc1]; exact hlocget, ?_, ?_⟩
  · rw [execute_snd_stdout, hraw2, hconf1]
    show truncOut env.config.truncate_output_chars (reprVal v ++ "\n") = reprVal v ++ "\n"
    unfold truncOut
    rw [if_neg (by omega)]
  · rw [execute_snd_success, hraw2]

/-- Witness for C4 at the demonstration session with `x := "x"` and
`v := 5`: the first call stores the binding and the second call echoes
`5`. -/
theorem C4_state_persistence_witness :
    Assoc.get ((execute envDemo [Stmt.assign "x" (Expr.lit (Val.int 5))] 0).1.locals) "x"
        = some (Val.int 5) ∧
    (execute (execute envDemo [Stmt.assign "x" (Expr.lit (Val.int 5))] 0).1
        [Stmt.exprStmt (Expr.var "x")] 0).2.stdout = reprVal (Val.int 5) ++ "\n" ∧
    (execute (execute envDemo [Stmt.assign "x" (Expr.lit (Val.int 5))] 0).1
        [Stmt.exprStmt (Expr.var "x")] 0).2.success = true :=
  C4_state_persistence envDemo "x" (Val.int 5) 0 0
    (by decide) (by decide) (by decide) (by decide) (by decide) (by decide)
    (by decide) (by decide) (by decide) (by decide) (by decide) (by decide)

/-- C1 (counterexample): the fragment `x = 3` followed by the bare
comparison `x == 3` — a trailing bare expression that is not an
assignment, not a control-flow header and not an output call, whose
value is `True` — produces no echo at all: the captured output is
empty, because the `"=" not in last_line` test rejects any line
containing `=`, comparisons included.  The run still succeeds. -/
theorem C1_counterexample :
    evalExpr (Assoc.set (Assoc.union envDemo.globals envDemo.locals) "x" (Val.int 3))
        (Expr.eqCmp (Expr.var "x") (Expr.lit (Val.int 3))) = Except.ok (Val.bool true) ∧
    (execute envDemo [Stmt.assign "x" (Expr.lit (Val.int 3)),
        Stmt.exprStmt (Expr.eqCmp (Expr.var "x") (Expr.lit (Val.int 3)))] 0).2.stdout = "" ∧
    (execute envDemo [Stmt.assign "x" (Expr.lit (Val.int 3)),
        Stmt.exprStmt (Expr.eqCmp (Expr.var "x") (Expr.lit (Val.int 3)))] 0).2.success = true := by
  refine ⟨rfl, by decide, by decide⟩

/-- C1 (amended): trailing-expression echo under the code's actual
string gate.  (1) If every line of the fragment is a non-import,
non-blank, non-comment line, the earlier lines are textually distinct
from the trailing line and execute without error, and the trailing
line passes `is_expression` (no statement-keyword head, no `=`
character before a `#` — which also excludes comparisons and keyword
arguments, not only assignments — no trailing `:`, not starting with
`print(`) and evaluates to a non-`None` value, then the captured
output (within the truncation limit) ends with the value's textual
representation and the call succeeds.  (2) A trailing line that passes
the gate but fails to parse as an expression (a semicolon-joined
statement pair) silently falls back to executing the whole remainder
as statements, and the call still succeeds normally with no echo. -/
theorem C1_trailing_echo_amended :
    (∀ (env : REPLEnv) (pre : List Stmt) (e : Expr) (ns1 : NS) (out1 : String) (v : Val)
        (t : Nat),
       (∀ s ∈ pre ++ [Stmt.exprStmt e], is_import_line (Stmt.toLine s) = false) →
       (∀ s ∈ pre, isCommentOrBlankLine (Stmt.toLine s) = false) →
       isCommentOrBlankLine (Stmt.toLine (Stmt.exprStmt e)) = false →
       is_expression (pyStrip (Stmt.toLine (Stmt.exprStmt e))) = true →
       (∀ s ∈ pre, pyStrip (Stmt.toLine s) ≠ pyStrip (Stmt.toLine (Stmt.exprStmt e))) →
       execStmts pre ⟨Assoc.union env.globals env.locals, "", Option.none⟩ =
           ⟨ns1, out1, Option.none⟩ →
       evalExpr ns1 e = Except.ok v →
       v ≠ Val.noneV →
       (out1 ++ reprVal v ++ "\n").length ≤ env.config.truncate_output_chars →
       (execute env (pre ++ [Stmt.exprStmt e]) t).2.stdout = out1 ++ reprVal v ++ "\n" ∧
       (execute env (pre ++ [Stmt.exprStmt e]) t).2.success = true) ∧
    (∀ (env : REPLEnv) (a b : Expr) (va vb : Val) (t : Nat),
       is_import_line (Stmt.toLine (Stmt.seqStmt a b)) = false →
       isCommentOrBlankLine (Stmt.toLine (Stmt.seqStmt a b)) = false →
       is_expression (pyStrip (Stmt.toLine (Stmt.seqStmt a b))) = true →
       evalExpr (Assoc.union env.globals env.locals) a = Except.ok va →
       evalExpr (Assoc.union env.globals env.locals) b = Except.ok vb →
       (execute env [Stmt.seqStmt a b] t).2.success = true ∧
       (execute env [Stmt.seqStmt a b] t).2.stdout = "") := by
  constructor
  · intro env pre e ns1 out1 v t h_imp h_cb h_cbe h_expr h_uniq h_pre h_eval h_v h_len
    have hd := display_echo pre e (Assoc.union env.globals env.locals) ns1 out1 v
      h_cb h_cbe h_expr h_uniq h_pre h_eval h_v
    have hraw := executeRaw_no_imports_ok env (pre ++ [Stmt.exprStmt e]) _ h_imp
      (by simp) hd rfl
    constructor
    · rw [execute_snd_stdout, hraw]
      show truncOut env.config.truncate_output_chars (out1 ++ reprVal v ++ "\n") = _
      unfold truncOut
      rw [if_neg (by omega)]
    · rw [execute_snd_success, hraw]
  · intro env a b va vb t h_imp h_cb h_expr ha hb
    have hd := display_seq_fallback a b (Assoc.union env.globals env.locals) va vb
      h_cb h_expr ha hb
    have hraw := executeRaw_no_imports_ok env [Stmt.seqStmt a b] _
      (by intro s hs; rw [List.mem_singleton.mp hs]; exact h_imp)
      (List.cons_ne_nil _ _) hd rfl
    constructor
    · rw [execute_snd_success, hraw]
    · rw [execute_snd_stdout, hraw]
      show truncOut env.config.truncate_output_chars "" = ""
      unfold truncOut
      rw [if_neg (by simp [String.length])]

/-- Witness for C1: `print(7)` followed by the bare `1 + 1` echoes
`2` after the printed output, and the semicolon line `1 ; 2` falls
back to statement execution and succeeds without echo. -/
theorem C1_trailing_echo_amended_witness :
    ((execute envDemo [Stmt.printStmt (Expr.lit (Val.int 7)),
        Stmt.exprStmt (Expr.add (Expr.lit (Val.int 1)) (Expr.lit (Val.int 1)))] 0).2.stdout =
          "7\n" ++ reprVal (Val.int 2) ++ "\n" ∧
     (execute envDemo [Stmt.printStmt (Expr.lit (Val.int 7)),
        Stmt.exprStmt (Expr.add (Expr.lit (Val.int 1)) (Expr.lit (Val.int 1)))] 0).2.success
          = true) ∧
    ((execute envDemo [Stmt.seqStmt (Expr.lit (Val.int 1)) (Expr.lit (Val.int 2))] 0).2.success
          = true ∧
     (execute envDemo [Stmt.seqStmt (Expr.lit (Val.int 1)) (Expr.lit (Val.int 2))] 0).2.stdout
          = "") :=
  ⟨C1_trailing_echo_amended.1 envDemo [Stmt.printStmt (Expr.lit (Val.int 7))]
      (Expr.add (Expr.lit (Val.int 1)) (Expr.lit (Val.int 1)))
      (Assoc.union envDemo.globals envDemo.locals) "7\n" (Val.int 2) 0
      (by decide) (by decide) (by decide) (by decide) (by decide) (by decide)
      rfl (by decide) (by decide),
   C1_trailing_echo_amended.2 envDemo (Expr.lit (Val.int 1)) (Expr.lit (Val.int 2))
      (Val.int 1) (Val.int 2) 0 (by decide) (by decide) (by decide) rfl rfl⟩

end RLM
